import Mathlib

/-!
Shallow embedding of the traceability audit engine
(`src/governance-framework/automation-runner/traceability/traceability.py`).

Modelling conventions:
* A file of the audited tree is an `SFile`: its path relative to the audit
  root, the text sample returned by `safe_read_text` (first 8192 bytes,
  decoded), the value returned by `load_file` (the JSON/YAML/CSV parsers are
  abstracted: `parsed` is the document the loader produced for this file),
  the digest returned by `sha256_of_file` (the SHA-256 computation is
  abstracted as this field), and the `st_mtime` / `st_ctime` stats as whole
  seconds (`Int`).
* Python dictionaries are association lists in insertion order; Python sets
  are lists used only through membership.
* Exceptions in the Python code only fire on unreadable files or broken
  parsers; the model works on the already-read tree, so those branches are
  not reachable here and are noted where they occur in the source.
* Timestamps (`datetime.now()`) are passed in explicitly as `now : Int`
  (seconds); `timedelta(days=365)` is `365 * 86400` seconds.
-/

namespace Traceability

/-- Python's `needle in hay` substring test on strings. -/
def strContains (hay needle : String) : Bool :=
  (List.range (hay.data.length + 1)).any (fun i => needle.data.isPrefixOf (hay.data.drop i))

/-- Python's `s.lower()` (over the basic latin letters the audit's names
and keywords use). -/
def strLower (s : String) : String :=
  String.mk (s.data.map Char.toLower)

/-- Split a character list on `/` (the separator of the relative paths the
model uses). -/
def splitOnSlash : List Char → List (List Char)
  | [] => [[]]
  | c :: rest =>
      match splitOnSlash rest with
      | [] => [[]]
      | grp :: more => if c == '/' then [] :: grp :: more else (c :: grp) :: more

/-- Python's `Path(...).name`: the last component of a `/`-separated path. -/
def lastComponent (path : String) : String :=
  String.mk (((splitOnSlash path.data).getLast?).getD path.data)

/-- Python's `PurePath.suffix`: the extension of the final component,
starting at the last dot, empty when the last dot is the first character,
absent, or final. -/
def pySuffix (name : String) : String :=
  let cs := name.data
  let idxs := (List.range cs.length).filter (fun i => cs.getD i ' ' == '.')
  match idxs.getLast? with
  | some i => if 0 < i ∧ i < cs.length - 1 then String.mk (cs.drop i) else ""
  | none => ""

/-- Values produced by `load_file`: parsed JSON/YAML documents
(`pdict`, `plist`, `pstr`, `pint`, `pnone`) or raw text for unstructured
files (`ptext`).  Floats are not modelled; no claim involves them. -/
inductive PyVal where
  | pstr : String → PyVal
  | pint : Int → PyVal
  | pdict : List (String × PyVal) → PyVal
  | plist : List PyVal → PyVal
  | pnone : PyVal
  | ptext : String → PyVal

/-- Python's `str()` on the values the audit stringifies.  The audit only
ever calls `str` on the `version` / `model_version` fields, which are
strings or numbers in every scenario of the spec; the renderings of the
remaining shapes are fixed placeholders. -/
def pyStr : PyVal → String
  | .pstr s => s
  | .pint n => toString n
  | .pdict _ => "dict"
  | .plist _ => "list"
  | .pnone => "None"
  | .ptext s => s

/-- Python's `d.get(key)` / `key in d` on a parsed dictionary. -/
def dlookup (fields : List (String × PyVal)) (key : String) : Option PyVal :=
  (fields.find? (fun p => p.1 == key)).map (·.2)

/-- A regular file of the audited tree (see the module docstring). -/
structure SFile where
  path : String
  content : String
  parsed : PyVal
  digest : String
  mtime : Int
  ctime : Int

/-- One entry of `TRACEABILITY_ITEMS`.  The `pt_name` / `es_name` / `desc` /
`legal_basis` fields of the source table are static strings that are only
copied verbatim into the report and never inspected by any computation, so
they are omitted from the embedding. -/
structure CatalogItem where
  weight : Nat
  en_name : String
  keywords : List String
  required_for : List String
deriving Repr, DecidableEq

/-- `RISK_LEVELS` from the source, in order. -/
def RISK_LEVELS : List (String × List String) := [
  ("high", ["dataset_versioning", "model_versioning", "decision_logs", "model_change_documentation",
    "hyperparameters_config", "audit_evidence", "performance_monitoring", "file_integrity_hash",
    "cross_reference", "dependency_documentation", "monitoring_events", "reproducibility_capability",
    "approvals_reviews", "regulatory_compliance", "design_decisions", "pipeline_auditability",
    "bias_metrics", "risk_mitigation", "inference_logs", "continuous_monitoring",
    "historical_reconstruction", "incident_documentation"]),
  ("limited", ["dataset_versioning", "model_versioning", "decision_logs", "hyperparameters_config",
    "file_integrity_hash", "cross_reference", "reproducibility_capability",
    "regulatory_compliance", "bias_metrics", "inference_logs"]),
  ("low", ["dataset_versioning", "model_versioning", "hyperparameters_config",
    "file_integrity_hash", "reproducibility_capability"])]

/-- `TRACEABILITY_ITEMS` from the source, in insertion order. -/
def TRACEABILITY_ITEMS : List (String × CatalogItem) := [
  ("dataset_versioning", ⟨10, "Dataset Versioning & Provenance",
    ["dataset", "version", "hash", "provenance", "data lineage"], ["high", "limited", "low"]⟩),
  ("model_versioning", ⟨10, "Model Versioning & Artifacts",
    ["model", "version", "checkpoint", "artifact", "serialization"], ["high", "limited", "low"]⟩),
  ("decision_logs", ⟨9, "Decision / Inference Logs",
    ["decision", "prediction", "log", "timestamp", "inference"], ["high", "limited"]⟩),
  ("model_change_documentation", ⟨8, "Model Change History",
    ["change", "modification", "update", "migration", "changelog"], ["high"]⟩),
  ("hyperparameters_config", ⟨8, "Hyperparameters & Training Config",
    ["hyperparameter", "config", "parameter", "setting", "training"], ["high", "limited", "low"]⟩),
  ("audit_evidence", ⟨9, "Audit Approvals & Evidence",
    ["audit", "evidence", "approval", "review", "committee"], ["high"]⟩),
  ("performance_monitoring", ⟨7, "Performance Monitoring",
    ["performance", "metric", "monitor", "dashboard", "accuracy"], ["high"]⟩),
  ("file_integrity_hash", ⟨8, "File Integrity Hashes",
    ["hash", "checksum", "integrity", "sha256", "md5"], ["high", "limited", "low"]⟩),
  ("cross_reference", ⟨9, "Cross-Reference Validation",
    ["reference", "link", "correlate", "associate", "cross-reference"], ["high", "limited"]⟩),
  ("dependency_documentation", ⟨7, "Dependency Documentation",
    ["dependency", "requirement", "environment", "library", "package"], ["high"]⟩),
  ("monitoring_events", ⟨7, "Monitoring Events & Alerts",
    ["event", "alert", "notification", "incident", "monitoring"], ["high"]⟩),
  ("reproducibility_capability", ⟨10, "Reproducibility Capability",
    ["reproduce", "replicate", "recreate", "repeatable", "reproducibility"], ["high", "limited", "low"]⟩),
  ("approvals_reviews", ⟨8, "Approvals & Reviews",
    ["approval", "review", "signoff", "authorization", "peer review"], ["high"]⟩),
  ("regulatory_compliance", ⟨9, "Regulatory Compliance",
    ["compliance", "regulation", "standard", "requirement", "gdpr"], ["high", "limited"]⟩),
  ("design_decisions", ⟨7, "Design Decisions Documentation",
    ["design", "decision", "architecture", "choice", "rationale"], ["high"]⟩),
  ("pipeline_auditability", ⟨8, "Pipeline Auditability",
    ["pipeline", "workflow", "process", "orchestration", "mlops"], ["high"]⟩),
  ("bias_metrics", ⟨8, "Bias/Fairness Metrics",
    ["bias", "fairness", "equity", "discrimination", "fair"], ["high", "limited"]⟩),
  ("risk_mitigation", ⟨8, "Risk Mitigation Evidence",
    ["risk", "mitigation", "control", "safeguard", "assessment"], ["high"]⟩),
  ("inference_logs", ⟨9, "Production Inference Logs",
    ["inference", "prediction", "output", "result", "production"], ["high", "limited"]⟩),
  ("continuous_monitoring", ⟨7, "Continuous Monitoring Reports",
    ["continuous", "monitoring", "ongoing", "real-time", "report"], ["high"]⟩),
  ("historical_reconstruction", ⟨9, "Historical Reconstruction Capability",
    ["historical", "reconstruct", "restore", "timeline", "backup"], ["high"]⟩),
  ("incident_documentation", ⟨8, "Incident Documentation",
    ["incident", "issue", "problem", "corrective", "action"], ["high"]⟩)]

/-- `FILE_PATTERNS` from the source, in insertion order (the order is
semantically significant: the first matching category wins). -/
def FILE_PATTERNS : List (String × List String) := [
  ("metadata_files", ["metadata", "model_card", "about", "info"]),
  ("model_artifacts", [".pt", ".pth", ".onnx", ".joblib", ".pkl", "model.", "checkpoint"]),
  ("dataset_files", ["dataset", "data", "train", "test", "validation", ".csv", ".parquet", ".jsonl"]),
  ("decision_logs", ["decision", "inference", "prediction", "log", "output"]),
  ("training_configs", ["config", "hyperparameters", "train_config", "settings", "parameters"]),
  ("requirements_files", ["requirements.txt", "pyproject.toml", "environment.yml", "pipfile", "setup.py"]),
  ("pipelines", ["pipeline", "dag", "workflow", "orchestration", "mlflow"]),
  ("approvals", ["approval", "committee", "signoff", "approved", "review", "audit"]),
  ("monitoring_reports", ["monitor", "dashboard", "metrics", "report", "performance"]),
  ("documentation", [".md", ".txt", "readme", "docs", "documentation"]),
  ("other_text", [".json", ".yaml", ".yml", ".csv", ".txt", ".md"])]

/-- `IGNORED_DIRS` from the source. -/
def IGNORED_DIRS : List String := [
  ".git", "__pycache__", ".pytest_cache", "node_modules", ".mypy_cache",
  ".vscode", ".idea", "venv", "env", ".DS_Store", "dist", "build", ".eggs"]

/-- `should_ignore_dir` applied to every parent of a file in `scan_repository`:
a file is skipped when any directory component of its relative path is an
ignored directory name. -/
def ignoredFile (f : SFile) : Bool :=
  (((splitOnSlash f.path.data).dropLast).map String.mk).any (fun part => part ∈ IGNORED_DIRS)

/-- Python's `pattern.startswith(".")`. -/
def startsWithDot (pattern : String) : Bool :=
  match pattern.data with
  | c :: _ => c == '.'
  | [] => false

/-- The inner pattern test of `scan_repository`: an extension pattern
(starting with a dot) must equal the lowercased suffix, any other pattern is
a substring of the lowercased file name. -/
def patternHit (fileName fileSuffix : String) (pattern : String) : Bool :=
  (startsWithDot pattern && fileSuffix == pattern) ||
  (!startsWithDot pattern && strContains fileName pattern)

/-- Whether some pattern of a category's list matches the file. -/
def categoryHit (patterns : List String) (f : SFile) : Bool :=
  patterns.any (patternHit (strLower (lastComponent f.path)) (strLower (pySuffix (lastComponent f.path))))

/-- One step of the classification loop of `scan_repository`: walk the
category buckets in `FILE_PATTERNS` order and append the file to the first
bucket whose pattern list matches (the `break` in the source). -/
def placeFile (f : SFile) : List (String × List String × List SFile) → List (String × List String × List SFile)
  | [] => []
  | (cat, patterns, files) :: rest =>
      if categoryHit patterns f then (cat, patterns, files ++ [f]) :: rest
      else (cat, patterns, files) :: placeFile f rest

/-- `scan_repository`: classify every non-ignored regular file into the
first matching category bucket.  (The traversal order of `rglob` is the
order of the input list; unreadable-directory errors are not modelled.) -/
def scan_repository (files : List SFile) : List (String × List SFile) :=
  (files.foldl
      (fun buckets f => if ignoredFile f then buckets else placeFile f buckets)
      (FILE_PATTERNS.map (fun p => (p.1, p.2, ([] : List SFile))))
    ).map (fun b => (b.1, b.2.2))

/-- The candidate list of a category: `candidates.get(cat, [])`. -/
def bucketOf (candidates : List (String × List SFile)) (cat : String) : List SFile :=
  ((candidates.find? (fun p => p.1 == cat)).map (·.2)).getD []

/-- The first category of `FILE_PATTERNS` whose pattern list matches the
file, if any (the spec's classification function: first pattern match
wins). -/
def classifyFirst (f : SFile) : Option String :=
  (FILE_PATTERNS.find? (fun p => categoryHit p.2 f)).map (·.1)

/-- The hash prefix used in archive names: `sha256_of_file` output, with
error strings replaced by `"unknown"`, truncated to 16 characters. -/
def hashForName (digest : String) : String :=
  String.mk ((if "error".data.isPrefixOf digest.data then "unknown" else digest).data.take 16)

/-- The first destination name tried by `copy_evidence`. -/
def destBase (mtime : Int) (h16 name : String) : String :=
  toString mtime ++ "_" ++ h16 ++ "__" ++ name

/-- The destination name tried by `copy_evidence` after `c` collisions. -/
def destCtr (mtime : Int) (h16 : String) (c : Nat) (name : String) : String :=
  toString mtime ++ "_" ++ h16 ++ "__" ++ toString c ++ "__" ++ name

/-- The collision-avoiding `while dest_path.exists()` loop of
`copy_evidence`, with explicit fuel.  The source loop runs until a fresh
name is found; `none` models fuel exhaustion, which is unreachable for the
fuel `copy_evidence` supplies whenever the candidate names are pairwise
distinct (the theorems below only ever run the loop on states where it
terminates within the fuel). -/
def copyLoop (archive : List String) (mtime : Int) (h16 name : String) :
    Nat → Nat → String → Option String
  | 0, _, _ => Option.none
  | fuel + 1, c, dest =>
      if dest ∈ archive then copyLoop archive mtime h16 name fuel (c + 1) (destCtr mtime h16 c name)
      else some dest

/-- `copy_evidence`: build the collision-resistant destination name, copy
the file (modelled as appending the name to the evidence directory's
listing) and return the path relative to the report root (the evidence
directory is named `evidence` in `main`).  Errors (unreadable source, copy
failure) are modelled by the `none` result, after which the state is
unchanged. -/
def copy_evidence (archive : List String) (f : SFile) : Option String × List String :=
  let h16 := hashForName f.digest
  let name := lastComponent f.path
  match copyLoop archive f.mtime h16 name (archive.length + 2) 1 (destBase f.mtime h16 name) with
  | some dest => (some ("evidence/" ++ dest), archive ++ [dest])
  | Option.none => (Option.none, archive)

/-- `validate_retention_policies`: flag files whose name contains a
retention-sensitive term and whose creation time is older than one year
before `now`.  (The unreadable-`st_ctime` branch of the source is not
reachable in the model, where every file carries its ctime; the source
message interpolates the full path.) -/
def validate_retention_policies (files : List SFile) (now : Int) : List String :=
  files.foldl
    (fun issues f =>
      if ["log", "audit", "backup", "trace"].any (fun term => strContains (strLower (lastComponent f.path)) term) then
        if f.ctime < now - 365 * 86400 then
          issues ++ ["Arquivo antigo potencialmente fora da política de retenção: " ++ f.path]
        else issues
      else issues)
    []

/-- The cross-reference issue narrative recorded by
`check_cross_references` for a log file and an unknown version. -/
def crossRefIssue (path version : String) : String :=
  "Log " ++ lastComponent path ++ " referencia versão de modelo desconhecida: " ++ version

/-- The set of `str(metadata["version"])` values over the metadata
documents that are dictionaries (the Python `set` is modelled as a list used
only through membership). -/
def collectVersions (metadata_files : List (String × PyVal)) : List String :=
  metadata_files.foldl
    (fun acc pm =>
      match pm.2 with
      | .pdict fields =>
          match dlookup fields "version" with
          | some v => acc ++ [pyStr v]
          | Option.none => acc
      | _ => acc)
    []

/-- The inner `for entry in log_data` loop of `check_cross_references` for a
list-shaped log: scan the entries in order, skip entries whose version is
known, and stop at the first entry whose version is unknown (the `break` in
the source), returning that version. -/
def firstUnknown (versions : List String) : List PyVal → Option String
  | [] => Option.none
  | entry :: rest =>
      match entry with
      | .pdict fields =>
          match dlookup fields "model_version" with
          | some v =>
              let lv := pyStr v
              if lv ∈ versions then firstUnknown versions rest else some lv
          | Option.none => firstUnknown versions rest
      | _ => firstUnknown versions rest

/-- One step of the log loop of `check_cross_references`: a dictionary log
with an unknown `model_version` appends one issue; a list log appends one
issue at its first offending entry; anything else appends nothing. -/
def crossRefStep (versions : List String) (issues : List String) (pl : String × PyVal) :
    List String :=
  match pl.2 with
  | .pdict fields =>
      match dlookup fields "model_version" with
      | some v =>
          let lv := pyStr v
          if lv ∈ versions then issues else issues ++ [crossRefIssue pl.1 lv]
      | Option.none => issues
  | .plist entries =>
      match firstUnknown versions entries with
      | some lv => issues ++ [crossRefIssue pl.1 lv]
      | Option.none => issues
  | _ => issues

/-- `check_cross_references`: collect the metadata versions, then record one
issue per offending log document (dictionary logs with an unknown
`model_version`; list logs at their first offending entry). -/
def check_cross_references (metadata_files log_files : List (String × PyVal)) : List String :=
  let versions := collectVersions metadata_files
  log_files.foldl (crossRefStep versions) []

/-- The per-item evaluation record built by `perform_audit` (the
`legal_basis` field, a verbatim copy of static catalog text, is omitted as
in `CatalogItem`). -/
structure ItemResult where
  weight : Nat
  score : Nat
  checks : List String
  evidence : List String
  status : String
  is_required_for_risk : Bool
deriving Repr, DecidableEq

/-- The mutable state shared across items: the `evidence_index` mapping of
original relative paths to archived paths, and the evidence directory's
listing. -/
structure GlobalSt where
  evidence_index : List (String × String)
  archive : List String
deriving Repr, DecidableEq

/-- The global half of `register_item_evidence`: when the relative path is
not yet in the evidence index, archive the file and record the mapping (a
failed copy records nothing). -/
def registerIdx (g : GlobalSt) (f : SFile) : GlobalSt :=
  if (g.evidence_index.find? (fun p => p.1 == f.path)).isSome then g
  else
    match copy_evidence g.archive f with
    | (some copied, archive') => ⟨g.evidence_index ++ [(f.path, copied)], archive'⟩
    | (Option.none, archive') => ⟨g.evidence_index, archive'⟩

/-- The per-item half of `register_item_evidence`: append the relative path
to the item's evidence list unless already present. -/
def registerEv (r : ItemResult) (f : SFile) : ItemResult :=
  if f.path ∈ r.evidence then r else { r with evidence := r.evidence ++ [f.path] }

/-- Append a check narrative to the item's result. -/
def addCheck (r : ItemResult) (msg : String) : ItemResult :=
  { r with checks := r.checks ++ [msg] }

/-- The inputs shared by every item evaluation inside `perform_audit`:
the classified candidates, the parsed metadata and decision-log files, and
the cross-reference issue list. -/
structure Ctx where
  candidates : List (String × List SFile)
  parsedMeta : List SFile
  parsedLogs : List SFile
  issues : List String

/-- `candidates.get(cat, [])` inside the evaluation. -/
def Ctx.bucket (ctx : Ctx) (cat : String) : List SFile :=
  bucketOf ctx.candidates cat

/-- All classified files in generic-pass order: `for category, files in
candidates.items(): for file_path in files`. -/
def allFiles (ctx : Ctx) : List SFile :=
  (ctx.candidates.map (·.2)).flatten

/-- The generic keyword test: some keyword occurs (case-insensitively) in
the file's sampled content or in its name. -/
def keywordHit (keywords : List String) (f : SFile) : Bool :=
  keywords.any (fun kw =>
    strContains (strLower f.content) (strLower kw) ||
    strContains (strLower (lastComponent f.path)) (strLower kw))

/-!
`register_item_evidence` has two independent effects: it extends the item's
own result (a check narrative was already appended by the caller; the
evidence list is extended) and it extends the global evidence index /
archive.  Neither effect reads the other's state, so the model runs them as
two parallel passes over the same file sequence in source order: the
`...R` functions build the `ItemResult` and the found flag, the `...G`
functions build the `GlobalSt`.
-/

/-- One step of the generic keyword loop, result side. -/
def genericStepR (meta : CatalogItem) (acc : ItemResult × Bool) (f : SFile) : ItemResult × Bool :=
  if keywordHit meta.keywords f then
    (registerEv (addCheck acc.1
        ("Keyword match for '" ++ meta.en_name ++ "' in " ++ lastComponent f.path ++ ".")) f,
      true)
  else acc

/-- The generic keyword loop over all classified files, result side. -/
def genericPassR (meta : CatalogItem) (ctx : Ctx) (r : ItemResult) : ItemResult × Bool :=
  (allFiles ctx).foldl (genericStepR meta) (r, false)

/-- The generic keyword loop, global side. -/
def genericPassG (meta : CatalogItem) (ctx : Ctx) (g : GlobalSt) : GlobalSt :=
  (allFiles ctx).foldl
    (fun g f => if keywordHit meta.keywords f then registerIdx g f else g) g

/-- Python equality between a stored document value and a digest string
(`m.get(...) == actual_hash`): true exactly when the value is that string. -/
def pyValIsStr (v : PyVal) (s : String) : Bool :=
  match v with
  | .pstr t => t == s
  | .ptext t => t == s
  | _ => false

/-- The `dataset_hash` values of the dictionary-shaped metadata documents. -/
def datasetHashes (ctx : Ctx) : List PyVal :=
  ctx.parsedMeta.foldl
    (fun acc f =>
      match f.parsed with
      | .pdict fields =>
          match dlookup fields "dataset_hash" with
          | some v => acc ++ [v]
          | Option.none => acc
      | _ => acc)
    []

/-- The bespoke trigger for `dataset_versioning`: a recorded dataset hash
or a DVC marker among the `other_text` files (the source tests `".dvc" in
str(p)` on the file's path). -/
def dvCond (ctx : Ctx) : Bool :=
  !(datasetHashes ctx).isEmpty ||
    (ctx.bucket "other_text").any (fun f => strContains f.path ".dvc")

/-- The bespoke trigger for `model_versioning`: a model artifact exists or
some metadata dictionary has a `version` field. -/
def mvCond (ctx : Ctx) : Bool :=
  !(ctx.bucket "model_artifacts").isEmpty ||
    ctx.parsedMeta.any (fun f =>
      match f.parsed with
      | .pdict fields => (dlookup fields "version").isSome
      | _ => false)

/-- The bespoke trigger for `reproducibility_capability`: all four of the
training-config, requirements, dataset and model-artifact categories are
non-empty. -/
def reproAll (ctx : Ctx) : Bool :=
  !(ctx.bucket "training_configs").isEmpty &&
  !(ctx.bucket "requirements_files").isEmpty &&
  !(ctx.bucket "dataset_files").isEmpty &&
  !(ctx.bucket "model_artifacts").isEmpty

/-- The files registered as reproducibility evidence, in source order. -/
def reproFiles (ctx : Ctx) : List SFile :=
  (["training_configs", "requirements_files", "dataset_files", "model_artifacts"].map
    ctx.bucket).flatten

/-- The bespoke per-file test for `file_integrity_hash`: some metadata
dictionary records the file's recomputed digest under `dataset_hash` or
under `model_hash`. -/
def integrityMatch (ctx : Ctx) (f : SFile) : Bool :=
  ctx.parsedMeta.any (fun m =>
      match m.parsed with
      | .pdict fields =>
          match dlookup fields "dataset_hash" with
          | some v => pyValIsStr v f.digest
          | Option.none => false
      | _ => false) ||
  ctx.parsedMeta.any (fun m =>
      match m.parsed with
      | .pdict fields =>
          match dlookup fields "model_hash" with
          | some v => pyValIsStr v f.digest
          | Option.none => false
      | _ => false)

/-- The bespoke structural checks of `perform_audit` (the `if item_key ==
...` chain after the generic loop), result side. -/
def bespokeR (key : String) (_meta : CatalogItem) (ctx : Ctx) (acc : ItemResult × Bool) :
    ItemResult × Bool :=
  if key == "dataset_versioning" then
    if dvCond ctx then
      let r := addCheck acc.1 "Specific dataset versioning artifacts found (DVC or dataset_hash)."
      let r := (ctx.bucket "dataset_files").foldl
        (fun r f =>
          if (datasetHashes ctx).any (fun v => pyValIsStr v f.digest) then
            registerEv (addCheck r ("Dataset hash validated for " ++ lastComponent f.path ++ ".")) f
          else r) r
      (r, true)
    else acc
  else if key == "model_versioning" then
    if mvCond ctx then
      let r := addCheck acc.1 "Specific model versioning artifacts found (model files or version metadata)."
      let r := (ctx.bucket "model_artifacts").foldl registerEv r
      (r, true)
    else acc
  else if key == "reproducibility_capability" then
    if reproAll ctx then
      let r := addCheck acc.1 "All core components for reproducibility found (config, deps, data, model)."
      let r := (reproFiles ctx).foldl registerEv r
      (r, true)
    else acc
  else if key == "cross_reference" then
    if ctx.issues.isEmpty then
      let r := addCheck acc.1 "Cross-references between logs and metadata are consistent."
      let r := (ctx.parsedLogs ++ ctx.parsedMeta).foldl registerEv r
      (r, true)
    else acc
  else if key == "file_integrity_hash" then
    ((ctx.bucket "dataset_files") ++ (ctx.bucket "model_artifacts")).foldl
      (fun acc f =>
        if integrityMatch ctx f then
          (registerEv (addCheck acc.1 ("File integrity confirmed for " ++ lastComponent f.path ++ ".")) f,
            true)
        else acc) acc
  else acc

/-- The bespoke structural checks, global side. -/
def bespokeG (key : String) (ctx : Ctx) (g : GlobalSt) : GlobalSt :=
  if key == "dataset_versioning" then
    if dvCond ctx then
      (ctx.bucket "dataset_files").foldl
        (fun g f =>
          if (datasetHashes ctx).any (fun v => pyValIsStr v f.digest) then registerIdx g f else g) g
    else g
  else if key == "model_versioning" then
    if mvCond ctx then (ctx.bucket "model_artifacts").foldl registerIdx g else g
  else if key == "reproducibility_capability" then
    if reproAll ctx then (reproFiles ctx).foldl registerIdx g else g
  else if key == "cross_reference" then
    if ctx.issues.isEmpty then (ctx.parsedLogs ++ ctx.parsedMeta).foldl registerIdx g else g
  else if key == "file_integrity_hash" then
    ((ctx.bucket "dataset_files") ++ (ctx.bucket "model_artifacts")).foldl
      (fun g f => if integrityMatch ctx f then registerIdx g f else g) g
  else g

/-- The fresh result an item starts from (the `details` entry created at
the top of the item loop; the defensive re-creation branch of the source is
unreachable because each key is processed once and `register_item_evidence`
only touches the item currently being processed). -/
def initResult (meta : CatalogItem) (risk : String) : ItemResult :=
  { weight := meta.weight, score := 0, checks := [], evidence := [],
    status := "not_found", is_required_for_risk := meta.required_for.contains risk }

/-- The evaluation of one catalog item, result side: items not required for
the risk tier are marked `optional` and skipped; otherwise the generic
keyword loop and the bespoke checks run, and the final score and status are
set from the found flag. -/
def evalItemR (risk : String) (ctx : Ctx) (key : String) (meta : CatalogItem) : ItemResult :=
  let r0 := initResult meta risk
  if !r0.is_required_for_risk then { r0 with status := "optional" }
  else
    let rf := bespokeR key meta ctx (genericPassR meta ctx r0)
    if rf.2 then { rf.1 with score := meta.weight, status := "found" }
    else { addCheck rf.1 ("No clear evidence found for '" ++ meta.en_name ++ "'.") with
            status := "not_found" }

/-- The evaluation of one catalog item, global side. -/
def evalItemG (risk : String) (ctx : Ctx) (key : String) (meta : CatalogItem) (g : GlobalSt) :
    GlobalSt :=
  if !(meta.required_for.contains risk) then g
  else bespokeG key ctx (genericPassG meta ctx g)

/-- The audit result assembled by `perform_audit` (the summary dictionary is
flattened into the record; `archive` is the evidence directory's final
listing, kept for the archiver theorems). -/
structure AuditResults where
  total_score : Nat
  max_score : Nat
  scanned_files : Nat
  risk_level : String
  required_items_count : Nat
  details : List (String × ItemResult)
  evidence_index : List (String × String)
  cross_reference_issues : List String
  retention_issues : List String
  scanned_categories : List (String × Nat)
  archive : List String
deriving Repr, DecidableEq

/-- `TRACEABILITY_ITEMS[item]["weight"]` (every key of `RISK_LEVELS` is in
the catalog, so the default is never used). -/
def getWeight (key : String) : Nat :=
  ((TRACEABILITY_ITEMS.find? (fun p => p.1 == key)).map (·.2.weight)).getD 0

/-- `RISK_LEVELS.get(risk_level, [])`. -/
def requiredItemsFor (risk : String) : List String :=
  ((RISK_LEVELS.find? (fun p => p.1 == risk)).map (·.2)).getD []

/-- The shared evaluation inputs computed at the top of `perform_audit`. -/
def auditCtx (files : List SFile) : Ctx :=
  let candidates := scan_repository files
  { candidates := candidates,
    parsedMeta := bucketOf candidates "metadata_files",
    parsedLogs := bucketOf candidates "decision_logs",
    issues := check_cross_references
      ((bucketOf candidates "metadata_files").map (fun f => (f.path, f.parsed)))
      ((bucketOf candidates "decision_logs").map (fun f => (f.path, f.parsed))) }

/-- One step of the item loop of `perform_audit`: evaluate the item, append
its details entry, thread the global evidence state and accumulate the
total score. -/
def auditStep (risk : String) (ctx : Ctx)
    (acc : List (String × ItemResult) × GlobalSt × Nat) (item : String × CatalogItem) :
    List (String × ItemResult) × GlobalSt × Nat :=
  let r := evalItemR risk ctx item.1 item.2
  (acc.1 ++ [(item.1, r)], evalItemG risk ctx item.1 item.2 acc.2.1, acc.2.2 + r.score)

/-- `perform_audit`: scan, validate retention and cross-references, then
evaluate every catalog item in order, accumulating the details map, the
global evidence state and the total score. -/
def perform_audit (files : List SFile) (risk : String) (now : Int) : AuditResults :=
  let ctx := auditCtx files
  let required_items := requiredItemsFor risk
  let folded := TRACEABILITY_ITEMS.foldl (auditStep risk ctx) ([], ⟨[], []⟩, 0)
  { total_score := folded.2.2,
    max_score := required_items.foldl (fun a k => a + getWeight k) 0,
    scanned_files := (ctx.candidates.map (fun p => p.2.length)).sum,
    risk_level := risk,
    required_items_count := required_items.length,
    details := folded.1,
    evidence_index := folded.2.1.evidence_index,
    cross_reference_issues := ctx.issues,
    retention_issues := validate_retention_policies files now,
    scanned_categories := ctx.candidates.map (fun p => (p.1, p.2.length)),
    archive := folded.2.1.archive }

/-- Round-half-even on an exact rational, the model of Python's `round` on
the division result (float arithmetic is modelled as exact rational
arithmetic). -/
def roundHalfEven (q : ℚ) : ℤ :=
  let n := ⌊q⌋
  let frac := q - (n : ℚ)
  if frac < 1 / 2 then n
  else if 1 / 2 < frac then n + 1
  else if n % 2 = 0 then n else n + 1

/-- Python's `round(x, 2)`. -/
def pyRound2 (q : ℚ) : ℚ :=
  (roundHalfEven (q * 100) : ℚ) / 100

/-- The report summary assembled by `generate_multilingual_report`: the
audit summary with the compliance percentage added
(`round(total/max*100, 2)` when `max_score > 0`, else `0.0`).  The rest of
the report is a verbatim merge of the audit results with the static
language tables and is not re-modelled. -/
structure ReportSummary where
  total_score : Nat
  max_score : Nat
  scanned_files : Nat
  risk_level : String
  required_items_count : Nat
  compliance_percentage : ℚ
deriving Repr, DecidableEq

/-- The summary part of `generate_multilingual_report`. -/
def generate_report_summary (res : AuditResults) : ReportSummary :=
  { total_score := res.total_score, max_score := res.max_score,
    scanned_files := res.scanned_files, risk_level := res.risk_level,
    required_items_count := res.required_items_count,
    compliance_percentage :=
      if res.max_score > 0 then pyRound2 ((res.total_score : ℚ) / (res.max_score : ℚ) * 100)
      else 0 }

/-!  Specification-side definitions, written from the spec's words, for the
refinement comparisons. -/

/-- From the spec: the sum of the weights of all catalog items whose
applicability (`required_for`) set contains the tier. -/
def applicableWeightSum (tier : String) : Nat :=
  (TRACEABILITY_ITEMS.filter (fun item => item.2.required_for.contains tier)).foldl
    (fun a item => a + item.2.weight) 0

/-- From the spec: the single issue a log document contributes — for a
dictionary log, its unknown version; for a list log, the first offending
entry's version. -/
def docIssue (versions : List String) (pl : String × PyVal) : Option String :=
  match pl.2 with
  | .pdict fields =>
      match dlookup fields "model_version" with
      | some v => if pyStr v ∈ versions then Option.none else some (crossRefIssue pl.1 (pyStr v))
      | Option.none => Option.none
  | .plist entries => (firstUnknown versions entries).map (crossRefIssue pl.1)
  | _ => Option.none

/-- The base archive name `copy_evidence` derives for a file. -/
def archBase (f : SFile) : String :=
  destBase f.mtime (hashForName f.digest) (lastComponent f.path)

/-- The archive name `copy_evidence` derives for a file after `c`
collisions. -/
def archCtr (f : SFile) (c : Nat) : String :=
  destCtr f.mtime (hashForName f.digest) c (lastComponent f.path)

/-!  Concrete audited trees used by the counterexamples and witnesses.
Every file is realizable: its sample, parsed value and digest are mutually
consistent for an ordinary on-disk file of that name. -/

/-- A file with the given relative path, sample text, parsed value and
digest (fresh timestamps). -/
def mkFile (path content : String) (parsed : PyVal) (digest : String) : SFile :=
  ⟨path, content, parsed, digest, 0, 0⟩

/-- An empty text file whose name carries a reproducibility keyword. -/
def reproduceTxt : SFile := mkFile "reproduce.txt" "" (.ptext "") "a1"

/-- A metadata document declaring model version 1.0. -/
def infoJson : SFile :=
  mkFile "metadata/info.json" "\x7b\"version\": \"1.0\"\x7d"
    (.pdict [("version", .pstr "1.0")]) "b1"

/-- A decision log citing the unknown model version 2.0. -/
def predLogJson : SFile :=
  mkFile "logs/pred_log.json" "\x7b\"model_version\": \"2.0\"\x7d"
    (.pdict [("model_version", .pstr "2.0")]) "b2"

/-- An empty text file whose name carries a cross-reference keyword. -/
def referenceTxt : SFile := mkFile "reference.txt" "" (.ptext "") "b3"

/-- The tree of the C2 counterexample. -/
def crossRefTree : List SFile := [infoJson, predLogJson, referenceTxt]

/-- The four-file reproducibility scenario of the spec (empty files: the
classification only reads the names). -/
def reproScenarioTree : List SFile := [
  mkFile "requirements.txt" "" (.ptext "") "c1",
  mkFile "train_config.yaml" "" .pnone "c2",
  mkFile "dataset.csv" "" (.plist []) "c3",
  mkFile "model.pkl" "" (.ptext "") "c4"]

/-- The same scenario with `dataset.csv` removed. -/
def reproScenarioTreeNoData : List SFile := [
  mkFile "requirements.txt" "" (.ptext "") "c1",
  mkFile "train_config.yaml" "" .pnone "c2",
  mkFile "model.pkl" "" (.ptext "") "c4"]

/-- A list-shaped decision log with two entries citing distinct unknown
versions. -/
def doubleUnknownLog : String × PyVal :=
  ("logs/pred.json", .plist [
    .pdict [("timestamp", .pstr "2024-01-01T00:00:00"), ("model_version", .pstr "2.0"), ("prediction", .pint 1)],
    .pdict [("timestamp", .pstr "2024-01-02T00:00:00"), ("model_version", .pstr "3.0"), ("prediction", .pint 0)]])

/-- A dataset file used by the archiver and dedup witnesses. -/
def archiveDemoFile : SFile :=
  mkFile "data/dataset.csv" "a,b" (.plist []) "abcdef0123456789deadbeef"

/-- A global state in which `data/dataset.csv` is already indexed. -/
def indexedDemoState : GlobalSt :=
  ⟨[("data/dataset.csv", "evidence/0_ab__dataset.csv")], ["0_ab__dataset.csv"]⟩

/-!  Proof-side views of the classification state, used to reason about the
`placeFile` fold of `scan_repository`. -/

/-- The files of a category inside the classification state. -/
def stateBucket (s : List (String × List String × List SFile)) (cat : String) : List SFile :=
  ((s.find? (fun b => b.1 == cat)).map (fun b => b.2.2)).getD []

/-- The first state bucket whose pattern list matches the file. -/
def stateFirst (s : List (String × List String × List SFile)) (f : SFile) : Option String :=
  (s.find? (fun b => categoryHit b.2.1 f)).map (fun b => b.1)

/-- The (category, patterns) skeleton of the classification state. -/
def stateSkel (s : List (String × List String × List SFile)) : List (String × List String) :=
  s.map (fun b => (b.1, b.2.1))

/-!  General fold lemmas shared by the theorems below. -/

/-- A fold whose step preserves a projection preserves it globally. -/
theorem foldl_proj_inv {σ γ : Type _} {α : Type _} (proj : σ → γ) (step : σ → α → σ)
    (h : ∀ s a, proj (step s a) = proj s) :
    ∀ (l : List α) (s : σ), proj (l.foldl step s) = proj s
  | [], _ => rfl
  | a :: l, s => by
      rw [List.foldl_cons, foldl_proj_inv proj step h l (step s a), h]

/-- A fold whose step preserves a predicate preserves it globally. -/
theorem foldl_pres_prop {σ : Type _} {α : Type _} (P : σ → Prop) (step : σ → α → σ)
    (h : ∀ s a, P s → P (step s a)) :
    ∀ (l : List α) (s : σ), P s → P (l.foldl step s)
  | [], _, hs => hs
  | a :: l, s, hs => foldl_pres_prop P step h l (step s a) (h s a hs)

/-- The found flag of the generic keyword loop is the disjunction of the
incoming flag with the existence of a keyword match. -/
theorem genericFold_snd (meta : CatalogItem) :
    ∀ (l : List SFile) (r : ItemResult) (b : Bool),
      (l.foldl (genericStepR meta) (r, b)).2 = (b || l.any (keywordHit meta.keywords))
  | [], _, b => by simp
  | f :: l, r, b => by
      by_cases hf : keywordHit meta.keywords f
      · simp [genericStepR, hf, genericFold_snd meta l]
      · simp [genericStepR, hf, genericFold_snd meta l]

/-- `registerEv` does not change the score. -/
theorem registerEv_score (r : ItemResult) (f : SFile) : (registerEv r f).score = r.score := by
  unfold registerEv; split <;> rfl

/-- `addCheck` does not change the score. -/
theorem addCheck_score (r : ItemResult) (m : String) : (addCheck r m).score = r.score := rfl

/-- The generic keyword loop does not change the score. -/
theorem genericPassR_score (meta : CatalogItem) (ctx : Ctx) (r : ItemResult) :
    (genericPassR meta ctx r).1.score = r.score := by
  unfold genericPassR
  exact foldl_proj_inv (fun acc => acc.1.score) (genericStepR meta)
    (by
      intro s a
      unfold genericStepR
      split
      · simp [registerEv_score, addCheck_score]
      · rfl)
    (allFiles ctx) (r, false)

/-- The bespoke structural checks do not change the score. -/
theorem bespokeR_score (key : String) (meta : CatalogItem) (ctx : Ctx) (acc : ItemResult × Bool) :
    (bespokeR key meta ctx acc).1.score = acc.1.score := by
  unfold bespokeR
  have hfold : ∀ (l : List SFile) (step : ItemResult → SFile → ItemResult)
      (hs : ∀ r f, (step r f).score = r.score) (r : ItemResult),
      (l.foldl step r).score = r.score := by
    intro l step hs r
    exact foldl_proj_inv ItemResult.score step hs l r
  split
  · split
    · exact (hfold _ _ (by
        intro r f; split
        · simp [registerEv_score, addCheck_score]
        · rfl) _).trans (addCheck_score _ _)
    · rfl
  · split
    · split
      · exact (hfold _ registerEv registerEv_score _).trans (addCheck_score _ _)
      · rfl
    · split
      · split
        · exact (hfold _ registerEv registerEv_score _).trans (addCheck_score _ _)
        · rfl
      · split
        · split
          · exact (hfold _ registerEv registerEv_score _).trans (addCheck_score _ _)
          · rfl
        · split
          · refine foldl_proj_inv (fun a => a.1.score) _ ?_ _ acc
            intro s f
            dsimp only
            split
            · simp [registerEv_score, addCheck_score]
            · rfl
          · rfl

/-- Each step of the item loop appends exactly one details entry, whose
value depends only on the item, not on the threaded global state. -/
theorem auditFold_fst (risk : String) (ctx : Ctx) :
    ∀ (items : List (String × CatalogItem)) (acc : List (String × ItemResult) × GlobalSt × Nat),
      (items.foldl (auditStep risk ctx) acc).1
        = acc.1 ++ items.map (fun item => (item.1, evalItemR risk ctx item.1 item.2))
  | [], acc => by simp
  | item :: items, acc => by
      rw [List.foldl_cons, auditFold_fst risk ctx items]
      simp [auditStep]

/-- The details map of an audit is the catalog, item by item, evaluated
against the audit context. -/
theorem perform_audit_details (files : List SFile) (risk : String) (now : Int) :
    (perform_audit files risk now).details
      = TRACEABILITY_ITEMS.map
          (fun item => (item.1, evalItemR risk (auditCtx files) item.1 item.2)) := by
  show (TRACEABILITY_ITEMS.foldl (auditStep risk (auditCtx files)) ([], ⟨[], []⟩, 0)).1 = _
  rw [auditFold_fst]
  simp

/-- Looking up `reproducibility_capability` in the details map. -/
theorem lookup_map_repro (risk : String) (ctx : Ctx) :
    (TRACEABILITY_ITEMS.map (fun item => (item.1, evalItemR risk ctx item.1 item.2))).lookup
        "reproducibility_capability"
      = some (evalItemR risk ctx "reproducibility_capability"
          ⟨10, "Reproducibility Capability",
            ["reproduce", "replicate", "recreate", "repeatable", "reproducibility"],
            ["high", "limited", "low"]⟩) := by rfl

/-- Looking up `cross_reference` in the details map. -/
theorem lookup_map_crossref (risk : String) (ctx : Ctx) :
    (TRACEABILITY_ITEMS.map (fun item => (item.1, evalItemR risk ctx item.1 item.2))).lookup
        "cross_reference"
      = some (evalItemR risk ctx "cross_reference"
          ⟨9, "Cross-Reference Validation",
            ["reference", "link", "correlate", "associate", "cross-reference"],
            ["high", "limited"]⟩) := by rfl

/-- The applicability flag of a fresh item result. -/
theorem initResult_required (meta : CatalogItem) (risk : String) :
    (initResult meta risk).is_required_for_risk = meta.required_for.contains risk := rfl

/-- The score of a fresh item result. -/
theorem initResult_score (meta : CatalogItem) (risk : String) :
    (initResult meta risk).score = 0 := rfl

/-- For an item required by the active tier, the final status is decided by
the found flag produced by the generic and bespoke passes. -/
theorem evalItemR_status_found (risk : String) (ctx : Ctx) (key : String) (meta : CatalogItem)
    (hreq : meta.required_for.contains risk = true) :
    (evalItemR risk ctx key meta).status
      = if (bespokeR key meta ctx (genericPassR meta ctx (initResult meta risk))).2 then "found"
        else "not_found" := by
  have h1 : (initResult meta risk).is_required_for_risk = true := by
    rw [initResult_required, hreq]
  cases hb : (bespokeR key meta ctx (genericPassR meta ctx (initResult meta risk))).2 <;>
    simp [evalItemR, h1, hb]

/-- An item not required by the active tier keeps score zero. -/
theorem evalItemR_score_optional (risk : String) (ctx : Ctx) (key : String) (meta : CatalogItem)
    (hreq : meta.required_for.contains risk = false) :
    (evalItemR risk ctx key meta).score = 0 := by
  have h1 : (initResult meta risk).is_required_for_risk = false := by
    rw [initResult_required, hreq]
  simp [evalItemR, h1, initResult_score]

/-- For a required item, the score is the full weight when found and zero
otherwise. -/
theorem evalItemR_score_required (risk : String) (ctx : Ctx) (key : String) (meta : CatalogItem)
    (hreq : meta.required_for.contains risk = true) :
    (evalItemR risk ctx key meta).score
      = if (bespokeR key meta ctx (genericPassR meta ctx (initResult meta risk))).2 then meta.weight
        else 0 := by
  have h1 : (initResult meta risk).is_required_for_risk = true := by
    rw [initResult_required, hreq]
  have h0 : (bespokeR key meta ctx (genericPassR meta ctx (initResult meta risk))).1.score = 0 := by
    rw [bespokeR_score, genericPassR_score]
    rfl
  cases hb : (bespokeR key meta ctx (genericPassR meta ctx (initResult meta risk))).2 <;>
    simp [evalItemR, h1, hb, addCheck_score, h0]

/-- A positive score forces status `found`. -/
theorem evalItemR_pos_score_found (risk : String) (ctx : Ctx) (key : String) (meta : CatalogItem)
    (hpos : 0 < (evalItemR risk ctx key meta).score) :
    (evalItemR risk ctx key meta).status = "found" := by
  cases hreq : meta.required_for.contains risk
  · rw [evalItemR_score_optional risk ctx key meta hreq] at hpos
    exact absurd hpos (by omega)
  · rw [evalItemR_score_required risk ctx key meta hreq] at hpos
    cases hb : (bespokeR key meta ctx (genericPassR meta ctx (initResult meta risk))).2
    · rw [hb, if_neg (by simp)] at hpos
      exact absurd hpos (by omega)
    · rw [evalItemR_status_found risk ctx key meta hreq, hb]
      rfl

/-- The found flag after the generic pass is exactly the existence of a
keyword match among the classified files. -/
theorem genericPassR_snd (meta : CatalogItem) (ctx : Ctx) (r : ItemResult) :
    (genericPassR meta ctx r).2 = (allFiles ctx).any (keywordHit meta.keywords) := by
  unfold genericPassR
  rw [genericFold_snd]
  simp

/-- For `reproducibility_capability`, the bespoke check adds exactly the
all-four-categories condition to the incoming found flag. -/
theorem bespokeR_repro_snd (meta : CatalogItem) (ctx : Ctx) (acc : ItemResult × Bool) :
    (bespokeR "reproducibility_capability" meta ctx acc).2 = (acc.2 || reproAll ctx) := by
  by_cases hr : reproAll ctx = true
  · simp [bespokeR, hr]
  · simp [bespokeR, hr, Bool.eq_false_iff.mpr hr]

/-- For `cross_reference`, the bespoke check adds exactly the empty-issue
condition to the incoming found flag. -/
theorem bespokeR_crossref_snd (meta : CatalogItem) (ctx : Ctx) (acc : ItemResult × Bool) :
    (bespokeR "cross_reference" meta ctx acc).2 = (acc.2 || ctx.issues.isEmpty) := by
  by_cases hi : ctx.issues.isEmpty = true
  · simp [bespokeR, hi]
  · simp [bespokeR, hi, Bool.eq_false_iff.mpr hi]

/-- Each step of the log loop appends the document's single issue, if
any. -/
theorem crossRefStep_eq (versions : List String) (issues : List String) (pl : String × PyVal) :
    crossRefStep versions issues pl = issues ++ (docIssue versions pl).toList := by
  rcases pl with ⟨path, v⟩
  cases v with
  | pdict fields =>
      cases h : dlookup fields "model_version" with
      | none => simp [crossRefStep, docIssue, h]
      | some w =>
          by_cases hv : pyStr w ∈ versions
          · simp [crossRefStep, docIssue, h, hv]
          · simp [crossRefStep, docIssue, h, hv]
  | plist entries =>
      cases h : firstUnknown versions entries with
      | none => simp [crossRefStep, docIssue, h]
      | some lv => simp [crossRefStep, docIssue, h]
  | pstr s => simp [crossRefStep, docIssue]
  | pint n => simp [crossRefStep, docIssue]
  | pnone => simp [crossRefStep, docIssue]
  | ptext s => simp [crossRefStep, docIssue]

/-- The log loop is the per-document issue map. -/
theorem crossRefFold (versions : List String) :
    ∀ (l : List (String × PyVal)) (acc : List String),
      l.foldl (crossRefStep versions) acc = acc ++ l.filterMap (docIssue versions)
  | [], acc => by simp
  | pl :: l, acc => by
      rw [List.foldl_cons, crossRefFold versions l, crossRefStep_eq]
      cases h : docIssue versions pl <;> simp [h]

/-- C1, counterexample: in a tree whose only file is the empty
`reproduce.txt`, the `model_artifacts` category is empty, yet the
`reproducibility_capability` item is `found` (its keyword `reproduce`
matches the file name), refuting the claimed equivalence with the
four-category condition. -/
theorem claim1_counterexample :
    bucketOf (scan_repository [reproduceTxt]) "model_artifacts" = [] ∧
    ((perform_audit [reproduceTxt] "low" 0).details.lookup "reproducibility_capability").map
        ItemResult.status = some "found" :=
  ⟨rfl, rfl⟩

/-- C1, amended: for every audited tree and every risk tier in which
`reproducibility_capability` is applicable, the item is `found` iff some
classified file matches one of the item's keywords in name or sampled
content, or all four of the training-config, requirements, dataset and
model-artifact categories are non-empty. -/
theorem claim1_reproducibility_found_iff (files : List SFile) (risk : String) (now : Int)
    (h : risk = "high" ∨ risk = "limited" ∨ risk = "low") :
    ((perform_audit files risk now).details.lookup "reproducibility_capability").map
        ItemResult.status = some "found"
      ↔ ((allFiles (auditCtx files)).any
            (keywordHit ["reproduce", "replicate", "recreate", "repeatable", "reproducibility"]) = true
          ∨ reproAll (auditCtx files) = true) := by
  have hreq : (["high", "limited", "low"] : List String).contains risk = true := by
    rcases h with h | h | h <;> subst h <;> decide
  rw [perform_audit_details, lookup_map_repro]
  rw [Option.map_some', Option.some.injEq]
  rw [evalItemR_status_found _ _ _ _ hreq, bespokeR_repro_snd, genericPassR_snd]
  have hne : ("not_found" : String) ≠ "found" := by decide
  cases ha : (allFiles (auditCtx files)).any
      (keywordHit ["reproduce", "replicate", "recreate", "repeatable", "reproducibility"]) <;>
    cases hr : reproAll (auditCtx files) <;>
      simp [ha, hr, hne]

/-- C1, witness: the amended equivalence applied to the counterexample
tree at tier `low`. -/
theorem claim1_witness :
    ((perform_audit [reproduceTxt] "low" 0).details.lookup "reproducibility_capability").map
        ItemResult.status = some "found"
      ↔ ((allFiles (auditCtx [reproduceTxt])).any
            (keywordHit ["reproduce", "replicate", "recreate", "repeatable", "reproducibility"]) = true
          ∨ reproAll (auditCtx [reproduceTxt]) = true) :=
  claim1_reproducibility_found_iff [reproduceTxt] "low" 0 (Or.inr (Or.inr rfl))

/-- C2, counterexample: a tree with metadata version 1.0, a decision log
citing the unknown version 2.0 and an empty `reference.txt` records one
cross-reference issue, yet the `cross_reference` item is `found` (its
keyword `reference` matches the file name), refuting the claimed
equivalence with the empty-issue condition. -/
theorem claim2_counterexample :
    (perform_audit crossRefTree "limited" 0).cross_reference_issues
        = ["Log pred_log.json referencia versão de modelo desconhecida: 2.0"] ∧
    ((perform_audit crossRefTree "limited" 0).details.lookup "cross_reference").map
        ItemResult.status = some "found" :=
  ⟨rfl, rfl⟩

/-- C2, amended: for every audited tree and every risk tier in which
`cross_reference` is applicable, the item is `found` iff some classified
file matches one of the item's keywords in name or sampled content, or the
Cross-Reference Validator's issue list is empty. -/
theorem claim2_crossref_found_iff (files : List SFile) (risk : String) (now : Int)
    (h : risk = "high" ∨ risk = "limited") :
    ((perform_audit files risk now).details.lookup "cross_reference").map
        ItemResult.status = some "found"
      ↔ ((allFiles (auditCtx files)).any
            (keywordHit ["reference", "link", "correlate", "associate", "cross-reference"]) = true
          ∨ (auditCtx files).issues = []) := by
  have hreq : (["high", "limited"] : List String).contains risk = true := by
    rcases h with h | h <;> subst h <;> decide
  rw [perform_audit_details, lookup_map_crossref]
  rw [Option.map_some', Option.some.injEq]
  rw [evalItemR_status_found _ _ _ _ hreq, bespokeR_crossref_snd, genericPassR_snd]
  have hne : ("not_found" : String) ≠ "found" := by decide
  cases ha : (allFiles (auditCtx files)).any
      (keywordHit ["reference", "link", "correlate", "associate", "cross-reference"]) <;>
    cases hi : (auditCtx files).issues <;>
      simp [ha, hi, hne]

/-- C2, witness: the amended equivalence applied to the counterexample
tree at tier `limited`. -/
theorem claim2_witness :
    ((perform_audit crossRefTree "limited" 0).details.lookup "cross_reference").map
        ItemResult.status = some "found"
      ↔ ((allFiles (auditCtx crossRefTree)).any
            (keywordHit ["reference", "link", "correlate", "associate", "cross-reference"]) = true
          ∨ (auditCtx crossRefTree).issues = []) :=
  claim2_crossref_found_iff crossRefTree "limited" 0 (Or.inr rfl)

/-- C3, counterexample: a list-shaped log with two entries citing the
unknown versions 2.0 and 3.0 produces exactly one issue, naming only 2.0;
no issue names 3.0, refuting the per-entry universal claim. -/
theorem claim3_counterexample :
    check_cross_references [] [doubleUnknownLog]
        = ["Log pred.json referencia versão de modelo desconhecida: 2.0"] ∧
    crossRefIssue "logs/pred.json" "3.0" ∉ check_cross_references [] [doubleUnknownLog] :=
  ⟨rfl, by decide⟩

/-- C3, amended: the validator's output is the per-document issue map: a
dictionary log declaring an unknown `model_version` contributes exactly one
issue naming the file and that version; a list log contributes exactly one
such issue for its first offending entry (later offending entries of the
same list add nothing); every other document contributes nothing. -/
theorem claim3_issue_map (metadata_files log_files : List (String × PyVal)) :
    check_cross_references metadata_files log_files
      = log_files.filterMap (docIssue (collectVersions metadata_files)) := by
  unfold check_cross_references
  rw [crossRefFold]
  simp

/-- C4: on the spec's four-file reproducibility scenario the code diverges
from the spec: `train_config.yaml` is classified into `dataset_files` (the
`dataset_files` pattern `train` fires before the `training_configs`
patterns), the `training_configs` category stays empty, and
`reproducibility_capability` is `not_found` both with and without
`dataset.csv`. -/
theorem claim4_repro_scenario :
    classifyFirst (mkFile "train_config.yaml" "" .pnone "c2") = some "dataset_files" ∧
    bucketOf (scan_repository reproScenarioTree) "training_configs" = [] ∧
    ((perform_audit reproScenarioTree "low" 0).details.lookup "reproducibility_capability").map
        ItemResult.status = some "not_found" ∧
    ((perform_audit reproScenarioTreeNoData "low" 0).details.lookup "reproducibility_capability").map
        ItemResult.status = some "not_found" :=
  ⟨rfl, rfl, rfl, rfl⟩

/-- C5: for each of the three tiers, the `max_score` reported by the audit
equals the sum of the weights of the catalog items whose `required_for` set
contains the tier. -/
theorem claim5_max_score (files : List SFile) (now : Int) :
    (perform_audit files "high" now).max_score = applicableWeightSum "high" ∧
    (perform_audit files "limited" now).max_score = applicableWeightSum "limited" ∧
    (perform_audit files "low" now).max_score = applicableWeightSum "low" :=
  ⟨rfl, rfl, rfl⟩

/-- C6: the reported compliance percentage is
`round(total_score / max_score * 100, 2)` when `max_score > 0` and exactly
`0` when `max_score = 0`; the division is never evaluated in the zero
case. -/
theorem claim6_compliance (files : List SFile) (risk : String) (now : Int) :
    (generate_report_summary (perform_audit files risk now)).compliance_percentage
      = if (perform_audit files risk now).max_score > 0 then
          pyRound2 (((perform_audit files risk now).total_score : ℚ)
            / ((perform_audit files risk now).max_score : ℚ) * 100)
        else 0 :=
  rfl

/-- C7, counterexample: auditing an empty tree at tier `limited` yields an
item (`cross_reference`) with positive score and an empty evidence list,
refuting the non-empty-evidence half of the invariant. -/
theorem claim7_counterexample :
    ∃ kr ∈ (perform_audit [] "limited" 0).details, 0 < kr.2.score ∧ kr.2.evidence = [] := by
  decide

/-- C7, amended: in every audit result, an item with positive awarded score
has status `found` (its evidence list may still be empty, as the
counterexample shows). -/
theorem claim7_positive_score_found (files : List SFile) (risk : String) (now : Int)
    (key : String) (r : ItemResult)
    (hmem : (key, r) ∈ (perform_audit files risk now).details) (hpos : 0 < r.score) :
    r.status = "found" := by
  rw [perform_audit_details] at hmem
  rcases List.mem_map.mp hmem with ⟨item, hitem, heq⟩
  rw [Prod.mk.injEq] at heq
  obtain ⟨hk, hr⟩ := heq
  subst hr
  exact evalItemR_pos_score_found _ _ _ _ hpos

/-- C7, witness: the amended implication applied to the `cross_reference`
entry of the empty-tree limited-tier audit. -/
theorem claim7_witness :
    (ItemResult.mk 9 9 ["Cross-references between logs and metadata are consistent."] [] "found"
        true).status = "found" :=
  claim7_positive_score_found [] "limited" 0 "cross_reference" _ (by decide) (by decide)

/-- Unfold `stateBucket` on a cons cell. -/
theorem stateBucket_cons (b : String × List String × List SFile)
    (rest : List (String × List String × List SFile)) (c : String) :
    stateBucket (b :: rest) c = if b.1 == c then b.2.2 else stateBucket rest c := by
  cases h : (b.1 == c) <;> simp [stateBucket, List.find?_cons, h]

/-- Unfold `stateFirst` on a cons cell. -/
theorem stateFirst_cons (f : SFile) (b : String × List String × List SFile)
    (rest : List (String × List String × List SFile)) :
    stateFirst (b :: rest) f = if categoryHit b.2.1 f then some b.1 else stateFirst rest f := by
  cases h : categoryHit b.2.1 f <;> simp [stateFirst, List.find?_cons, h]

/-- Unfold `bucketOf` on a cons cell. -/
theorem bucketOf_cons (p : String × List SFile) (rest : List (String × List SFile)) (c : String) :
    bucketOf (p :: rest) c = if p.1 == c then p.2 else bucketOf rest c := by
  cases h : (p.1 == c) <;> simp [bucketOf, List.find?_cons, h]

/-- `placeFile` preserves the (category, patterns) skeleton of the state. -/
theorem placeFile_skel (f : SFile) :
    ∀ s, stateSkel (placeFile f s) = stateSkel s
  | [] => rfl
  | (cat, pats, fs) :: rest => by
      unfold placeFile
      split
      · rfl
      · simp only [stateSkel, List.map_cons]
        have := placeFile_skel f rest
        simp only [stateSkel] at this
        rw [this]

/-- A file found in a bucket after `placeFile` was either already there or
is the placed file, landed in the first matching bucket. -/
theorem placeFile_mem (f g : SFile) (c : String) :
    ∀ s, g ∈ stateBucket (placeFile f s) c →
      g ∈ stateBucket s c ∨ (g = f ∧ stateFirst s f = some c)
  | [], h => by
      simp [placeFile, stateBucket] at h
  | (cat, pats, fs) :: rest, h => by
      rw [stateBucket_cons, stateFirst_cons]
      by_cases hhit : categoryHit pats f = true
      · rw [placeFile, if_pos hhit] at h
        rw [stateBucket_cons] at h
        dsimp only at h ⊢
        by_cases hc : (cat == c) = true
        · rw [if_pos hc] at h ⊢
          rw [if_pos hhit]
          rcases List.mem_append.mp h with hl | hr
          · exact Or.inl hl
          · exact Or.inr ⟨List.mem_singleton.mp hr, by rw [beq_iff_eq.mp hc]⟩
        · rw [if_neg hc] at h ⊢
          exact Or.inl h
      · rw [placeFile, if_neg hhit] at h
        rw [stateBucket_cons] at h
        dsimp only at h ⊢
        by_cases hc : (cat == c) = true
        · rw [if_pos hc] at h ⊢
          exact Or.inl h
        · rw [if_neg hc] at h ⊢
          rw [if_neg hhit]
          exact placeFile_mem f g c rest h

/-- `stateFirst` only depends on the skeleton of the state. -/
theorem stateFirst_skel (f : SFile) :
    ∀ (s : List (String × List String × List SFile)),
      stateSkel s = FILE_PATTERNS → stateFirst s f = classifyFirst f := by
  suffices h : ∀ (s : List (String × List String × List SFile)) (l : List (String × List String)),
      stateSkel s = l →
      stateFirst s f = (l.find? (fun p => categoryHit p.2 f)).map (fun p => p.1) by
    intro s hs
    rw [h s FILE_PATTERNS hs]
    rfl
  intro s
  induction s with
  | nil =>
      intro l hl
      rw [← hl]
      rfl
  | cons b rest ih =>
      intro l hl
      rw [← hl]
      simp only [stateSkel, List.map_cons]
      rw [stateFirst_cons]
      cases hhit : categoryHit b.2.1 f
      · rw [if_neg (by simp [hhit]), List.find?_cons_of_neg _ (by simp [hhit])]
        exact ih (stateSkel rest) rfl
      · rw [if_pos (by simp [hhit]), List.find?_cons_of_pos _ (by simp [hhit])]
        rfl

/-- Every bucket of the initial classification state is empty. -/
theorem stateBucket_init (c : String) :
    stateBucket (FILE_PATTERNS.map (fun p => (p.1, p.2, ([] : List SFile)))) c = [] := by
  unfold stateBucket
  cases hf : (FILE_PATTERNS.map (fun p => (p.1, p.2, ([] : List SFile)))).find?
      (fun b => b.1 == c) with
  | none => rfl
  | some b =>
      have hb := List.mem_of_find?_eq_some hf
      rcases List.mem_map.mp hb with ⟨p, _, hp⟩
      rw [← hp]
      rfl

/-- Classification invariant of the scanning fold: every file sitting in a
bucket is one whose first matching category is that bucket. -/
theorem scanFold_classify :
    ∀ (files : List SFile) (s : List (String × List String × List SFile)),
      stateSkel s = FILE_PATTERNS →
      (∀ g c, g ∈ stateBucket s c → classifyFirst g = some c) →
      stateSkel (files.foldl
          (fun buckets f => if ignoredFile f then buckets else placeFile f buckets) s)
          = FILE_PATTERNS ∧
      ∀ g c, g ∈ stateBucket (files.foldl
          (fun buckets f => if ignoredFile f then buckets else placeFile f buckets) s) c →
        classifyFirst g = some c
  | [], s, hskel, hinv => ⟨hskel, hinv⟩
  | f :: files, s, hskel, hinv => by
      rw [List.foldl_cons]
      by_cases hig : ignoredFile f = true
      · rw [if_pos hig]
        exact scanFold_classify files s hskel hinv
      · rw [if_neg hig]
        refine scanFold_classify files (placeFile f s) ?_ ?_
        · rw [placeFile_skel, hskel]
        · intro g c hg
          rcases placeFile_mem f g c s hg with hold | ⟨hgf, hfirst⟩
          · exact hinv g c hold
          · rw [stateFirst_skel f s hskel] at hfirst
            rw [hgf]
            exact hfirst

/-- `bucketOf` on the projected state is `stateBucket`. -/
theorem bucketOf_map_state :
    ∀ (s : List (String × List String × List SFile)) (c : String),
      bucketOf (s.map (fun b => (b.1, b.2.2))) c = stateBucket s c
  | [], _ => rfl
  | b :: rest, c => by
      rw [List.map_cons, bucketOf_cons, stateBucket_cons]
      dsimp only
      by_cases hc : (b.1 == c) = true
      · rw [if_pos hc, if_pos hc]
      · rw [if_neg hc, if_neg hc]
        exact bucketOf_map_state rest c

/-- Membership in a scanned bucket determines the first matching
category. -/
theorem scan_mem_classify (files : List SFile) (g : SFile) (c : String)
    (h : g ∈ bucketOf (scan_repository files) c) : classifyFirst g = some c := by
  unfold scan_repository at h
  rw [bucketOf_map_state] at h
  refine (scanFold_classify files
      (FILE_PATTERNS.map (fun p => (p.1, p.2, ([] : List SFile)))) (by rfl) ?_).2 g c h
  intro g c hg
  rw [stateBucket_init] at hg
  cases hg

/-- C8: every scanned file is classified into at most one category — the
first category of the ordered pattern table whose pattern matches its
lowercased name or extension — and a file matching no pattern appears in no
category. -/
theorem claim8_first_match_wins (files : List SFile) (f : SFile) (c c' : String) :
    (f ∈ bucketOf (scan_repository files) c → classifyFirst f = some c) ∧
    (f ∈ bucketOf (scan_repository files) c → f ∈ bucketOf (scan_repository files) c' → c = c') ∧
    (classifyFirst f = Option.none → f ∉ bucketOf (scan_repository files) c) := by
  refine ⟨scan_mem_classify files f c, ?_, ?_⟩
  · intro h h'
    have h1 := scan_mem_classify files f c h
    have h2 := scan_mem_classify files f c' h'
    rw [h1] at h2
    exact Option.some.inj h2
  · intro hn h
    rw [scan_mem_classify files f c h] at hn
    cases hn

/-- C8, witness: the classification theorem applied to a concrete scan in
which `info.json` lands in `metadata_files`. -/
theorem claim8_witness : classifyFirst infoJson = some "metadata_files" :=
  (claim8_first_match_wins [infoJson] infoJson "metadata_files" "metadata_files").1
    (show infoJson ∈ [infoJson] from List.mem_singleton.mpr rfl)

/-- The base archive name and its counter-1 variant differ (they have
different lengths). -/
theorem archBase_ne_archCtr (f : SFile) : archBase f ≠ archCtr f 1 := by
  intro h
  have hl := congrArg String.length h
  have h1 : (toString (1 : Nat)).length = 1 := rfl
  simp only [archBase, archCtr, destBase, destCtr, String.length_append, h1] at hl
  omega

/-- C9: archiving the same source file twice into the same evidence
directory produces two distinct entries: the first named
`<mtime>_<digest-prefix>__<name>`, the second with the numeric counter `1`
inserted; both are fresh at insertion time, so no existing entry is
overwritten (the listing only ever grows by the new name). -/
theorem claim9_archive_twice (archive : List String) (f : SFile)
    (h1 : archBase f ∉ archive) (h2 : archCtr f 1 ∉ archive) :
    copy_evidence archive f = (some ("evidence/" ++ archBase f), archive ++ [archBase f]) ∧
    copy_evidence (archive ++ [archBase f]) f
      = (some ("evidence/" ++ archCtr f 1), archive ++ [archBase f] ++ [archCtr f 1]) ∧
    archBase f ≠ archCtr f 1 := by
  have hne := archBase_ne_archCtr f
  simp only [archBase, archCtr] at h1 h2 hne ⊢
  have hmem1 : destBase f.mtime (hashForName f.digest) (lastComponent f.path)
      ∈ archive ++ [destBase f.mtime (hashForName f.digest) (lastComponent f.path)] := by simp
  have hmem2 : ¬ destCtr f.mtime (hashForName f.digest) 1 (lastComponent f.path)
      ∈ archive ++ [destBase f.mtime (hashForName f.digest) (lastComponent f.path)] := by
    intro hmem
    rcases List.mem_append.mp hmem with hl | hr
    · exact h2 hl
    · exact hne ((List.mem_singleton.mp hr).symm)
  refine ⟨?_, ?_, hne⟩
  · unfold copy_evidence
    rw [show archive.length + 2 = (archive.length + 1) + 1 from rfl]
    simp only [copyLoop]
    rw [if_neg h1]
  · unfold copy_evidence
    rw [show (archive ++ [destBase f.mtime (hashForName f.digest) (lastComponent f.path)]).length + 2
          = ((archive.length + 1) + 1) + 1 from by simp]
    simp only [copyLoop]
    rw [if_pos hmem1, if_neg hmem2]

/-- C9, witness: the archiver theorem applied to a concrete file and an
empty evidence directory. -/
theorem claim9_witness :
    copy_evidence [] archiveDemoFile
        = (some ("evidence/" ++ archBase archiveDemoFile), [] ++ [archBase archiveDemoFile]) ∧
    copy_evidence ([] ++ [archBase archiveDemoFile]) archiveDemoFile
        = (some ("evidence/" ++ archCtr archiveDemoFile 1),
            [] ++ [archBase archiveDemoFile] ++ [archCtr archiveDemoFile 1]) ∧
    archBase archiveDemoFile ≠ archCtr archiveDemoFile 1 :=
  claim9_archive_twice [] archiveDemoFile (List.not_mem_nil _) (List.not_mem_nil _)

/-- A registration whose path is already indexed changes nothing. -/
theorem registerIdx_indexed (g : GlobalSt) (f : SFile)
    (h : ∃ v, (f.path, v) ∈ g.evidence_index) : registerIdx g f = g := by
  rcases h with ⟨v, hv⟩
  have hs : (g.evidence_index.find? (fun p => p.1 == f.path)).isSome = true := by
    rw [List.find?_isSome]
    exact ⟨(f.path, v), hv, by simp⟩
  unfold registerIdx
  rw [if_pos hs]

/-- `registerIdx` preserves distinctness of the indexed paths. -/
theorem registerIdx_nodup (g : GlobalSt) (f : SFile)
    (h : (g.evidence_index.map Prod.fst).Nodup) :
    ((registerIdx g f).evidence_index.map Prod.fst).Nodup := by
  unfold registerIdx
  split
  · exact h
  · rename_i hfind
    have hnone : g.evidence_index.find? (fun p => p.1 == f.path) = Option.none := by
      cases hx : g.evidence_index.find? (fun p => p.1 == f.path)
      · rfl
      · rw [hx] at hfind
        exact absurd rfl hfind
    have hfresh : ∀ x ∈ g.evidence_index, x.1 ≠ f.path := by
      intro x hx heq
      have := List.find?_eq_none.mp hnone x hx
      simp [heq] at this
    rcases hc : copy_evidence g.archive f with ⟨copied, archive'⟩
    cases copied
    · exact h
    · simp only [List.map_append, List.map_cons, List.map_nil]
      rw [List.nodup_append]
      refine ⟨h, List.nodup_singleton _, ?_⟩
      intro a ha hb
      rcases List.mem_map.mp ha with ⟨x, hx, hxa⟩
      rw [List.mem_singleton.mp hb] at hxa
      exact hfresh x hx hxa

/-- The generic pass preserves distinctness of the indexed paths. -/
theorem genericPassG_nodup (meta : CatalogItem) (ctx : Ctx) (g : GlobalSt)
    (h : (g.evidence_index.map Prod.fst).Nodup) :
    ((genericPassG meta ctx g).evidence_index.map Prod.fst).Nodup := by
  unfold genericPassG
  refine foldl_pres_prop (fun g : GlobalSt => (g.evidence_index.map Prod.fst).Nodup) _ ?_ _ _ h
  intro s a hs
  dsimp only
  split
  · exact registerIdx_nodup s a hs
  · exact hs

/-- The bespoke checks preserve distinctness of the indexed paths. -/
theorem bespokeG_nodup (key : String) (ctx : Ctx) (g : GlobalSt)
    (h : (g.evidence_index.map Prod.fst).Nodup) :
    ((bespokeG key ctx g).evidence_index.map Prod.fst).Nodup := by
  have hstep : ∀ (l : List SFile) (g : GlobalSt),
      (g.evidence_index.map Prod.fst).Nodup →
      (((l.foldl registerIdx g).evidence_index.map Prod.fst)).Nodup := by
    intro l g hg
    exact foldl_pres_prop (fun g : GlobalSt => (g.evidence_index.map Prod.fst).Nodup) registerIdx
      (fun s a hs => registerIdx_nodup s a hs) l g hg
  have hstepIf : ∀ (p : SFile → Bool) (l : List SFile) (g : GlobalSt),
      (g.evidence_index.map Prod.fst).Nodup →
      (((l.foldl (fun g f => if p f then registerIdx g f else g) g).evidence_index.map
          Prod.fst)).Nodup := by
    intro p l g hg
    refine foldl_pres_prop (fun g : GlobalSt => (g.evidence_index.map Prod.fst).Nodup) _ ?_ _ _ hg
    intro s a hs
    dsimp only
    split
    · exact registerIdx_nodup s a hs
    · exact hs
  unfold bespokeG
  split
  · split
    · exact hstepIf _ _ _ h
    · exact h
  · split
    · split
      · exact hstep _ _ h
      · exact h
    · split
      · split
        · exact hstep _ _ h
        · exact h
      · split
        · split
          · exact hstep _ _ h
          · exact h
        · split
          · exact hstepIf _ _ _ h
          · exact h

/-- One item evaluation preserves distinctness of the indexed paths. -/
theorem evalItemG_nodup (risk : String) (ctx : Ctx) (key : String) (meta : CatalogItem)
    (g : GlobalSt) (h : (g.evidence_index.map Prod.fst).Nodup) :
    ((evalItemG risk ctx key meta g).evidence_index.map Prod.fst).Nodup := by
  unfold evalItemG
  split
  · exact h
  · exact bespokeG_nodup key ctx _ (genericPassG_nodup meta ctx g h)

/-- The evidence index of a whole audit has pairwise distinct keys. -/
theorem perform_audit_index_nodup (files : List SFile) (risk : String) (now : Int) :
    ((perform_audit files risk now).evidence_index.map Prod.fst).Nodup := by
  show (((TRACEABILITY_ITEMS.foldl (auditStep risk (auditCtx files))
      ([], ⟨[], []⟩, 0)).2.1.evidence_index.map Prod.fst)).Nodup
  refine foldl_pres_prop
    (fun acc : List (String × ItemResult) × GlobalSt × Nat =>
      (acc.2.1.evidence_index.map Prod.fst).Nodup)
    (auditStep risk (auditCtx files)) ?_ TRACEABILITY_ITEMS ([], ⟨[], []⟩, 0) (by simp)
  intro acc item hacc
  exact evalItemG_nodup risk (auditCtx files) item.1 item.2 acc.2.1 hacc

/-- C10: within one audit run the evidence index maps each original
relative path to at most one archived path (its keys are pairwise
distinct), and registering a path that is already indexed leaves the
index and the archive unchanged — no second copy is made. -/
theorem claim10_copy_once :
    (∀ (files : List SFile) (risk : String) (now : Int),
        ((perform_audit files risk now).evidence_index.map Prod.fst).Nodup) ∧
    (∀ (g : GlobalSt) (f : SFile),
        (∃ v, (f.path, v) ∈ g.evidence_index) → registerIdx g f = g) :=
  ⟨perform_audit_index_nodup, registerIdx_indexed⟩

/-- C10, witness: the dedup theorem applied to the cross-reference tree
audit and to a concrete already-indexed state. -/
theorem claim10_witness :
    ((perform_audit crossRefTree "limited" 0).evidence_index.map Prod.fst).Nodup ∧
    registerIdx indexedDemoState archiveDemoFile = indexedDemoState :=
  ⟨claim10_copy_once.1 crossRefTree "limited" 0,
    claim10_copy_once.2 indexedDemoState archiveDemoFile
      ⟨"evidence/0_ab__dataset.csv", List.mem_singleton.mpr rfl⟩⟩

end Traceability
